import Mathlib

/- Verification development for the selective face-blurring pipeline
(`deface/main.py` and `api_service.py` of coursetexts/blur-upload-pipeline).

The per-frame tracking and disambiguation logic, the geometry helpers, the
anonymization drawing primitives and the entry-point validation sequence are
embedded as executable Lean definitions.  External collaborators (the face
detector, the person detector, the ReID matcher, the tracker and the recovery
engine, which live outside this repository's sources) are modelled as
per-frame oracle inputs supplied through an environment record.  Pixel
coordinates and scores are modelled as rationals. -/

/-- Embeds `calculate_containment_ratio` (main.py, lines 209-232).
`detBox` is in `[x, y, w, h]` format, `trackingBox` in `[x1, y1, x2, y2]`
format; the result is the intersection area divided by the detection area
when the detection area is positive, and 0 otherwise. -/
def calc_containment (detBox trackingBox : ℚ × ℚ × ℚ × ℚ) : ℚ :=
  let detX1 := detBox.1
  let detY1 := detBox.2.1
  let detX2 := detX1 + detBox.2.2.1
  let detY2 := detY1 + detBox.2.2.2
  let trackX1 := trackingBox.1
  let trackY1 := trackingBox.2.1
  let trackX2 := trackingBox.2.2.1
  let trackY2 := trackingBox.2.2.2
  let ix1 := max detX1 trackX1
  let iy1 := max detY1 trackY1
  let ix2 := min detX2 trackX2
  let iy2 := min detY2 trackY2
  let intersectionArea := max 0 (ix2 - ix1) * max 0 (iy2 - iy1)
  let detArea := (detX2 - detX1) * (detY2 - detY1)
  if detArea > 0 then intersectionArea / detArea else 0

/-- Embeds `boxes_intersect` (main.py, lines 234-245).  The code always
takes the `len(box1) == 4` branch, which converts `box1` from
`[x, y, w, h]` to corner format by adding the third and fourth entries to
the first and second; `box2` is used as-is in `[x1, y1, x2, y2]` format. -/
def boxes_intersect (box1 box2 : ℚ × ℚ × ℚ × ℚ) : Bool :=
  let x11 := box1.1
  let y11 := box1.2.1
  let x21 := x11 + box1.2.2.1
  let y21 := y11 + box1.2.2.2
  let x12 := box2.1
  let y12 := box2.2.1
  let x22 := box2.2.2.1
  let y22 := box2.2.2.2
  !(decide (x21 < x12) || decide (x11 > x22) || decide (y21 < y12) || decide (y11 > y22))

/-- Two axis-aligned rectangles given in corner format `[x1, y1, x2, y2]`
share at least one point.  This definition follows the spec's words
("count distinct person boxes ... that intersect the tracked bbox at all
(any overlap, not containment)"); it is the geometric predicate the claim
compares `boxes_intersect` against. -/
def spec_cornerOverlap (b1 b2 : ℚ × ℚ × ℚ × ℚ) : Prop :=
  b2.1 ≤ b1.2.2.1 ∧ b1.1 ≤ b2.2.2.1 ∧ b2.2.1 ≤ b1.2.2.2 ∧ b1.2.1 ≤ b2.2.2.2

instance (b1 b2 : ℚ × ℚ × ℚ × ℚ) : Decidable (spec_cornerOverlap b1 b2) := by
  unfold spec_cornerOverlap; infer_instance

/-- C10: `calculate_containment_ratio` is total and guarded: a detection box
of zero or negative area yields 0 (no division is attempted); a detection box
with positive width and height wholly inside the tracking box yields 1; a
detection box whose rectangle is disjoint from (or merely touching) the
tracking box yields 0. -/
theorem claim_C10_containment_total
    (dx dy dw dh tx1 ty1 tx2 ty2 : ℚ) :
    (dw * dh ≤ 0 → calc_containment (dx, dy, dw, dh) (tx1, ty1, tx2, ty2) = 0) ∧
    (0 < dw → 0 < dh → tx1 ≤ dx → ty1 ≤ dy → dx + dw ≤ tx2 → dy + dh ≤ ty2 →
      calc_containment (dx, dy, dw, dh) (tx1, ty1, tx2, ty2) = 1) ∧
    (dx + dw ≤ tx1 ∨ tx2 ≤ dx ∨ dy + dh ≤ ty1 ∨ ty2 ≤ dy →
      calc_containment (dx, dy, dw, dh) (tx1, ty1, tx2, ty2) = 0) := by
  unfold calc_containment
  simp only [add_sub_cancel_left]
  refine ⟨fun h => ?_, fun hw hh h1 h2 h3 h4 => ?_, fun h => ?_⟩
  · rw [if_neg (not_lt.mpr h)]
  · have harea : 0 < dw * dh := mul_pos hw hh
    rw [if_pos harea]
    have e1 : max dx tx1 = dx := max_eq_left h1
    have e2 : max dy ty1 = dy := max_eq_left h2
    have e3 : min (dx + dw) tx2 = dx + dw := min_eq_left h3
    have e4 : min (dy + dh) ty2 = dy + dh := min_eq_left h4
    rw [e1, e2, e3, e4]
    have f1 : max 0 (dx + dw - dx) = dw := by
      rw [add_sub_cancel_left]; exact max_eq_right hw.le
    have f2 : max 0 (dy + dh - dy) = dh := by
      rw [add_sub_cancel_left]; exact max_eq_right hh.le
    rw [f1, f2]
    exact div_self harea.ne'
  · have hzero :
        max 0 (min (dx + dw) tx2 - max dx tx1) * max 0 (min (dy + dh) ty2 - max dy ty1) = 0 := by
      rcases h with h | h | h | h
      · have : min (dx + dw) tx2 - max dx tx1 ≤ 0 := by
          have l1 : min (dx + dw) tx2 ≤ dx + dw := min_le_left _ _
          have l2 : tx1 ≤ max dx tx1 := le_max_right _ _
          linarith
        rw [max_eq_left this, zero_mul]
      · have : min (dx + dw) tx2 - max dx tx1 ≤ 0 := by
          have l1 : min (dx + dw) tx2 ≤ tx2 := min_le_right _ _
          have l2 : dx ≤ max dx tx1 := le_max_left _ _
          linarith
        rw [max_eq_left this, zero_mul]
      · have : min (dy + dh) ty2 - max dy ty1 ≤ 0 := by
          have l1 : min (dy + dh) ty2 ≤ dy + dh := min_le_left _ _
          have l2 : ty1 ≤ max dy ty1 := le_max_right _ _
          linarith
        rw [max_eq_left this, mul_zero]
      · have : min (dy + dh) ty2 - max dy ty1 ≤ 0 := by
          have l1 : min (dy + dh) ty2 ≤ ty2 := min_le_right _ _
          have l2 : dy ≤ max dy ty1 := le_max_left _ _
          linarith
        rw [max_eq_left this, mul_zero]
    rw [hzero]
    split <;> simp

/-- C10 witness: concrete evaluations of the three cases.  The box
`[1, 1, 2, 2]` (so corners `[1, 1, 3, 3]`) lies wholly inside
`[0, 0, 10, 10]` and yields ratio 1; the degenerate box `[3, 3, 0, 5]`
yields 0; the box `[0, 0, 2, 2]` is disjoint from `[5, 5, 10, 10]`
and yields 0. -/
theorem claim_C10_containment_total_witness :
    calc_containment (1, 1, 2, 2) (0, 0, 10, 10) = 1 ∧
    calc_containment (3, 3, 0, 5) (0, 0, 10, 10) = 0 ∧
    calc_containment (0, 0, 2, 2) (5, 5, 10, 10) = 0 :=
  ⟨(claim_C10_containment_total 1 1 2 2 0 0 10 10).2.1 (by norm_num) (by norm_num)
      (by norm_num) (by norm_num) (by norm_num) (by norm_num),
   (claim_C10_containment_total 3 3 0 5 0 0 10 10).1 (by norm_num),
   (claim_C10_containment_total 0 0 2 2 5 5 10 10).2.2 (by norm_num)⟩

/-- A face detection as produced by the CenterFace collaborator: a row
`[x1, y1, x2, y2, score]` in corner format. -/
structure Det where
  x1 : ℚ
  y1 : ℚ
  x2 : ℚ
  y2 : ℚ
  score : ℚ
deriving DecidableEq

/-- The `[x, y, w, h]` tuple `(det[0], det[1], det[2]-det[0], det[3]-det[1])`
that `video_detect` builds from a face-detection row before calling
`calculate_containment_ratio`. -/
def detXYWH (d : Det) : ℚ × ℚ × ℚ × ℚ :=
  (d.x1, d.y1, d.x2 - d.x1, d.y2 - d.y1)

/-- Containment ratio of a face detection against a tracked bbox, exactly as
`video_detect` computes it. -/
def detContainment (d : Det) (tb : ℚ × ℚ × ℚ × ℚ) : ℚ :=
  calc_containment (detXYWH d) tb

/-- A row of `person_detection_results.boxes.data` from the YOLO person
detector: `[x1, y1, x2, y2, conf, cls]` with the box in corner format. -/
structure PersonRow where
  x1 : ℚ
  y1 : ℚ
  x2 : ℚ
  y2 : ℚ
  conf : ℚ
  cls : ℚ
deriving DecidableEq

/-- The `result[:4]` corner box of a person-detector row. -/
def personRowBox (r : PersonRow) : ℚ × ℚ × ℚ × ℚ :=
  (r.x1, r.y1, r.x2, r.y2)

/-- The `intersecting_persons` count of `video_detect` (main.py, lines
620-630): among rows with class 0 and confidence at least 0.3, the number
whose `result[:4]` box passes `boxes_intersect` against the tracked bbox. -/
def intersectingPersonCount (rows : List PersonRow) (tb : ℚ × ℚ × ℚ × ℚ) : Nat :=
  (((rows.filter (fun r => decide (r.cls = 0) && decide (r.conf ≥ 3/10))).map
      personRowBox).filter (fun pb => boxes_intersect pb tb)).length

/-- C3: the disambiguation branch counts a person box toward
`intersecting_persons` even though its rectangle is disjoint from the
tracked bbox.  The person box `[10, 10, 20, 20]` (corner format, as the
person detector produces) ends at x = 20 while the tracked bbox
`[25, 25, 28, 28]` starts at x = 25, so they share no point; yet
`boxes_intersect` re-interprets the corner box as `[x, y, w, h]`, tests the
rectangle `[10, 10, 30, 30]` instead, and counts it.  This contradicts the
claim (and the function's own description) that a box is counted if and
only if it overlaps the tracked bbox at all. -/
theorem claim_C3_intersect_eval :
    intersectingPersonCount [⟨10, 10, 20, 20, 9/10, 0⟩] (25, 25, 28, 28) = 1 ∧
    ¬ spec_cornerOverlap (10, 10, 20, 20) (25, 25, 28, 28) := by
  constructor
  · norm_num [intersectingPersonCount, List.filter, boxes_intersect, personRowBox]
  · intro h
    have := h.1
    norm_num at this

/-- The cross-frame mutable state of the `video_detect` frame loop:
`face_tracker` (modelled by whether a tracker handle is active),
`target_person_found`, `frames_without_faces` and `prev_bbox`. -/
structure TrackState where
  trackerActive : Bool
  targetPersonFound : Bool
  framesWithoutFaces : Nat
  prevBbox : Option (ℚ × ℚ × ℚ × ℚ)
deriving DecidableEq

/-- Run configuration: the `disable_tracker_reset` flag and
`MAX_FRAMES_WITHOUT_FACES` (default 30). -/
structure Config where
  disableTrackerReset : Bool
  maxFramesWithoutFaces : Nat
  enablePreview : Bool
deriving DecidableEq

/-- Per-frame oracle: the values the external collaborators return on this
frame.  `faceDets` is the CenterFace output; `findPerson` the result of
`find_person_in_frame` (person bbox and ReID score) if it were consulted;
`trackerUpdate` the result of `update_face_tracker`; `recoverOnUpdateFail`
and `recoverOnZeroInRegion` the results of the two `recover_tracking` call
sites; `personRows` the YOLO rows; `previewQuit` whether the preview window
would report a quit key this frame.  `init_face_tracker` is modelled as
returning the bbox it is seeded with. -/
structure FrameEnv where
  faceDets : List Det
  findPerson : Option ((ℚ × ℚ × ℚ × ℚ) × ℚ)
  trackerUpdate : Option (ℚ × ℚ × ℚ × ℚ)
  recoverOnUpdateFail : Option (ℚ × ℚ × ℚ × ℚ)
  recoverOnZeroInRegion : Option (ℚ × ℚ × ℚ × ℚ)
  personRows : List PersonRow
  previewQuit : Bool

/-- Step 2 of the frame loop (main.py, lines 523-548): when no target is
found or no tracker is active and there are face detections, consult the
target matcher; on success initialize the tracker at the returned person
bbox and mark the target as found.  (The matcher's face/person crops and
score only feed the debug overlay and are not tracked here.) -/
def acquireStep (env : FrameEnv) (st : TrackState) (dets : List Det) : TrackState :=
  if (!st.targetPersonFound || !st.trackerActive) && !dets.isEmpty then
    match env.findPerson with
    | some (personBbox, _score) =>
        { st with trackerActive := true, targetPersonFound := true,
                  prevBbox := some personBbox }
    | none => st
  else st

/-- The disambiguation and reset logic run once a tracked bbox `tb` is in
hand (main.py, lines 573-685).  Returns the end-of-frame state and the
detections left in the anonymization set (the list later passed to
`anonymize_frame`). -/
def disambiguate (cfg : Config) (env : FrameEnv) (tb : ℚ × ℚ × ℚ × ℚ)
    (st : TrackState) (dets : List Det) : TrackState × List Det :=
  let detsInTracked := dets.filter (fun d => decide (detContainment d tb > 1/2))
  if detsInTracked.length = 1 then
    ({ st with framesWithoutFaces := 0, prevBbox := some tb },
     dets.filter (fun d => decide (detContainment d tb < 1/2)))
  else if detsInTracked.length > 1 then
    let intersecting := intersectingPersonCount env.personRows tb
    if intersecting ≤ 1 then
      ({ st with framesWithoutFaces := 0, prevBbox := some tb },
       dets.filter (fun d => decide (detContainment d tb < 1/2)))
    else
      ({ st with framesWithoutFaces := 0, prevBbox := some tb }, dets)
  else
    match env.recoverOnZeroInRegion with
    | some r =>
        let detsAfter :=
          match dets.find? (fun d => decide (detContainment d r > 1/2)) with
          | some recoveredDet => dets.filter (fun d => decide (d ≠ recoveredDet))
          | none => dets
        let ctr := 0 + 1
        if !cfg.disableTrackerReset && ctr ≥ cfg.maxFramesWithoutFaces then
          ({ trackerActive := false, targetPersonFound := false,
             framesWithoutFaces := 0, prevBbox := some r }, detsAfter)
        else
          ({ trackerActive := true, targetPersonFound := st.targetPersonFound,
             framesWithoutFaces := ctr, prevBbox := some r }, detsAfter)
    | none =>
        let ctr := st.framesWithoutFaces + 1
        if !cfg.disableTrackerReset && ctr ≥ cfg.maxFramesWithoutFaces then
          ({ st with trackerActive := false, targetPersonFound := false,
                     framesWithoutFaces := 0, prevBbox := some tb }, dets)
        else
          ({ st with framesWithoutFaces := ctr, prevBbox := some tb }, dets)

/-- Step 3 of the frame loop (main.py, lines 551-685): when a tracker is
active, update it; on update failure attempt recovery and, if that also
fails, drop the tracker and return to the searching state; with a tracked
bbox in hand run the disambiguation logic. -/
def trackStep (cfg : Config) (env : FrameEnv) (st : TrackState)
    (dets : List Det) : TrackState × List Det :=
  if st.trackerActive then
    match env.trackerUpdate with
    | some tb => disambiguate cfg env tb st dets
    | none =>
        match env.recoverOnUpdateFail with
        | some r => disambiguate cfg env r { st with prevBbox := some r } dets
        | none =>
            ({ st with trackerActive := false, targetPersonFound := false }, dets)
  else (st, dets)

/-- One full iteration of the `video_detect` frame loop for one frame:
face detection, target acquisition, tracking and disambiguation.  Returns
the end-of-frame state and the anonymization set handed to
`anonymize_frame`. -/
def frameStep (cfg : Config) (env : FrameEnv) (st : TrackState) :
    TrackState × List Det :=
  let dets := env.faceDets
  let st1 := acquireStep env st dets
  trackStep cfg env st1 dets

/-- C1: on a frame processed while tracking, when exactly one face detection
has containment ratio above 0.5 against the tracked bbox, that detection is
removed from the anonymization set, `frames_without_faces` is reset to 0,
and the resulting anonymization set is disjoint from the target-identity
detection. -/
theorem claim_C1_single_in_region
    (cfg : Config) (env : FrameEnv) (tb : ℚ × ℚ × ℚ × ℚ)
    (st : TrackState) (dets : List Det) (d : Det)
    (h : dets.filter (fun d => decide (detContainment d tb > 1/2)) = [d]) :
    d ∉ (disambiguate cfg env tb st dets).2 ∧
    (disambiguate cfg env tb st dets).1.framesWithoutFaces = 0 ∧
    ∀ d' ∈ (disambiguate cfg env tb st dets).2, d' ≠ d := by
  have hd : detContainment d tb > 1/2 := by
    have hmem : d ∈ dets.filter (fun d => decide (detContainment d tb > 1/2)) := by
      rw [h]; exact List.mem_singleton.mpr rfl
    exact of_decide_eq_true (List.mem_filter.mp hmem).2
  have hout :
      (disambiguate cfg env tb st dets).2 =
        dets.filter (fun d => decide (detContainment d tb < 1/2)) ∧
      (disambiguate cfg env tb st dets).1.framesWithoutFaces = 0 := by
    unfold disambiguate
    rw [h]
    simp
  have hnotmem : d ∉ (disambiguate cfg env tb st dets).2 := by
    rw [hout.1]
    intro hmem
    have hlt : detContainment d tb < 1/2 := of_decide_eq_true (List.mem_filter.mp hmem).2
    linarith
  refine ⟨hnotmem, hout.2, fun d' hmem' heq => hnotmem (heq ▸ hmem')⟩

/-- C1 witness: a concrete frame in tracking with one in-region detection.
The face `[110, 110, 150, 150]` lies wholly inside the tracked bbox
`[100, 100, 200, 200]` (ratio 1), while `[0, 0, 10, 10]` is far outside
(ratio 0). -/
theorem claim_C1_single_in_region_witness :
    ([⟨110, 110, 150, 150, 9/10⟩, ⟨0, 0, 10, 10, 1/2⟩] :
        List Det).filter
      (fun d => decide (detContainment d (100, 100, 200, 200) > 1/2)) =
        [⟨110, 110, 150, 150, 9/10⟩] ∧
    (⟨110, 110, 150, 150, 9/10⟩ : Det) ∉
      (disambiguate ⟨false, 30, false⟩
        ⟨[], none, none, none, none, [], false⟩ (100, 100, 200, 200)
        ⟨true, true, 0, none⟩
        [⟨110, 110, 150, 150, 9/10⟩, ⟨0, 0, 10, 10, 1/2⟩]).2 ∧
    (disambiguate ⟨false, 30, false⟩
        ⟨[], none, none, none, none, [], false⟩ (100, 100, 200, 200)
        ⟨true, true, 0, none⟩
        [⟨110, 110, 150, 150, 9/10⟩, ⟨0, 0, 10, 10, 1/2⟩]).1.framesWithoutFaces = 0 := by
  have hfilter :
      ([⟨110, 110, 150, 150, 9/10⟩, ⟨0, 0, 10, 10, 1/2⟩] :
          List Det).filter
        (fun d => decide (detContainment d (100, 100, 200, 200) > 1/2)) =
          [⟨110, 110, 150, 150, 9/10⟩] := by
    norm_num [List.filter, detContainment, detXYWH, calc_containment]
  have hmain := claim_C1_single_in_region ⟨false, 30, false⟩
    ⟨[], none, none, none, none, [], false⟩ (100, 100, 200, 200)
    ⟨true, true, 0, none⟩
    [⟨110, 110, 150, 150, 9/10⟩, ⟨0, 0, 10, 10, 1/2⟩]
    ⟨110, 110, 150, 150, 9/10⟩ hfilter
  exact ⟨hfilter, hmain.1, hmain.2.1⟩

/-- C2: on a frame processed while tracking with more than one in-region
face detection, the branch on the `intersecting_persons` count decides the
anonymization set: when the count is at most 1 every in-region detection is
excluded from the set, and when it is greater than 1 every in-region
detection remains in the set.  (The count is the one the code computes with
`boxes_intersect` over person rows of confidence at least 0.3; the geometry
of that intersection test is assessed separately in claim C3.) -/
theorem claim_C2_multi_face_branch
    (cfg : Config) (env : FrameEnv) (tb : ℚ × ℚ × ℚ × ℚ)
    (st : TrackState) (dets : List Det)
    (h : 1 < (dets.filter (fun d => decide (detContainment d tb > 1/2))).length) :
    (intersectingPersonCount env.personRows tb ≤ 1 →
      ∀ d ∈ dets, detContainment d tb > 1/2 →
        d ∉ (disambiguate cfg env tb st dets).2) ∧
    (1 < intersectingPersonCount env.personRows tb →
      ∀ d ∈ dets, detContainment d tb > 1/2 →
        d ∈ (disambiguate cfg env tb st dets).2) := by
  have hne : (dets.filter (fun d => decide (detContainment d tb > 1/2))).length ≠ 1 :=
    Nat.ne_of_gt h
  constructor
  · intro hcount d hmem hratio
    have hout : (disambiguate cfg env tb st dets).2 =
        dets.filter (fun d => decide (detContainment d tb < 1/2)) := by
      unfold disambiguate
      rw [if_neg hne, if_pos h, if_pos hcount]
    rw [hout]
    intro hmem'
    have hlt : detContainment d tb < 1/2 := of_decide_eq_true (List.mem_filter.mp hmem').2
    linarith
  · intro hcount d hmem hratio
    have hout : (disambiguate cfg env tb st dets).2 = dets := by
      unfold disambiguate
      rw [if_neg hne, if_pos h, if_neg (Nat.not_le_of_lt hcount)]
    rw [hout]
    exact hmem

/-- C2 witness: two in-region faces inside the tracked bbox
`[100, 100, 200, 200]`.  With no qualifying person rows the count is 0 and
both faces leave the anonymization set; with two distinct qualifying person
rows over the tracked bbox the count is 2 and both faces stay. -/
theorem claim_C2_multi_face_branch_witness :
    1 < (([⟨110, 110, 150, 150, 9/10⟩, ⟨160, 160, 190, 190, 8/10⟩] :
        List Det).filter
      (fun d => decide (detContainment d (100, 100, 200, 200) > 1/2))).length ∧
    (⟨110, 110, 150, 150, 9/10⟩ : Det) ∉
      (disambiguate ⟨false, 30, false⟩
        ⟨[], none, none, none, none, [], false⟩ (100, 100, 200, 200)
        ⟨true, true, 0, none⟩
        [⟨110, 110, 150, 150, 9/10⟩, ⟨160, 160, 190, 190, 8/10⟩]).2 ∧
    (⟨110, 110, 150, 150, 9/10⟩ : Det) ∈
      (disambiguate ⟨false, 30, false⟩
        ⟨[], none, none, none, none,
          [⟨90, 90, 160, 210, 9/10, 0⟩, ⟨150, 90, 205, 210, 8/10, 0⟩], false⟩
        (100, 100, 200, 200)
        ⟨true, true, 0, none⟩
        [⟨110, 110, 150, 150, 9/10⟩, ⟨160, 160, 190, 190, 8/10⟩]).2 := by
  have hfilter :
      (([⟨110, 110, 150, 150, 9/10⟩, ⟨160, 160, 190, 190, 8/10⟩] :
          List Det).filter
        (fun d => decide (detContainment d (100, 100, 200, 200) > 1/2))) =
        [⟨110, 110, 150, 150, 9/10⟩, ⟨160, 160, 190, 190, 8/10⟩] := by
    norm_num [List.filter, detContainment, detXYWH, calc_containment]
  have hlen : 1 < (([⟨110, 110, 150, 150, 9/10⟩, ⟨160, 160, 190, 190, 8/10⟩] :
      List Det).filter
        (fun d => decide (detContainment d (100, 100, 200, 200) > 1/2))).length := by
    rw [hfilter]; norm_num
  have hcount0 : intersectingPersonCount
      (([] : List PersonRow)) (100, 100, 200, 200) ≤ 1 := by
    norm_num [intersectingPersonCount, List.filter]
  have hcount2 : 1 < intersectingPersonCount
      [⟨90, 90, 160, 210, 9/10, 0⟩, ⟨150, 90, 205, 210, 8/10, 0⟩]
      (100, 100, 200, 200) := by
    norm_num [intersectingPersonCount, List.filter, boxes_intersect, personRowBox]
  have hratio : detContainment (⟨110, 110, 150, 150, 9/10⟩ : Det)
      (100, 100, 200, 200) > 1/2 := by
    norm_num [detContainment, detXYWH, calc_containment]
  refine ⟨hlen, ?_, ?_⟩
  · exact (claim_C2_multi_face_branch ⟨false, 30, false⟩
      ⟨[], none, none, none, none, [], false⟩ (100, 100, 200, 200)
      ⟨true, true, 0, none⟩ _ hlen).1 hcount0 _ (by norm_num) hratio
  · exact (claim_C2_multi_face_branch ⟨false, 30, false⟩
      ⟨[], none, none, none, none,
        [⟨90, 90, 160, 210, 9/10, 0⟩, ⟨150, 90, 205, 210, 8/10, 0⟩], false⟩
      (100, 100, 200, 200)
      ⟨true, true, 0, none⟩ _ hlen).2 hcount2 _ (by norm_num) hratio

/-- C5: with auto-reset enabled, a frame in tracking with zero in-region
detections and failed recovery on which the incremented counter reaches
`MAX_FRAMES_WITHOUT_FACES` ends with the tracker handle discarded
(`trackerActive = false`), the state returned to searching
(`targetPersonFound = false`) and the counter reset to 0; moreover (for a
positive maximum) no frame ever ends still tracking with the counter at or
above the maximum. -/
theorem claim_C5_tracker_reset
    (cfg : Config) (env : FrameEnv) (tb : ℚ × ℚ × ℚ × ℚ)
    (st : TrackState) (dets : List Det)
    (hdr : cfg.disableTrackerReset = false) :
    (dets.filter (fun d => decide (detContainment d tb > 1/2)) = [] →
      env.recoverOnZeroInRegion = none →
      cfg.maxFramesWithoutFaces ≤ st.framesWithoutFaces + 1 →
      (disambiguate cfg env tb st dets).1.trackerActive = false ∧
      (disambiguate cfg env tb st dets).1.targetPersonFound = false ∧
      (disambiguate cfg env tb st dets).1.framesWithoutFaces = 0) ∧
    (1 ≤ cfg.maxFramesWithoutFaces →
      (disambiguate cfg env tb st dets).1.trackerActive = true →
      (disambiguate cfg env tb st dets).1.framesWithoutFaces <
        cfg.maxFramesWithoutFaces) := by
  constructor
  · intro h0 hr hm
    unfold disambiguate
    rw [h0, hr]
    simp [hdr, hm]
  · intro hpos
    simp only [disambiguate]
    repeat' split
    all_goals intro hact
    all_goals simp_all
    all_goals omega

/-- C5 witness: with the default maximum of 30, a tracked frame carrying a
counter of 29, no in-region detections and failed recovery ends searching
with the counter at 0; and a concrete instance of the no-tracking-past-max
invariant. -/
theorem claim_C5_tracker_reset_witness :
    (disambiguate ⟨false, 30, false⟩
        ⟨[], none, none, none, none, [], false⟩ (100, 100, 200, 200)
        ⟨true, true, 29, none⟩ []).1.trackerActive = false ∧
    (disambiguate ⟨false, 30, false⟩
        ⟨[], none, none, none, none, [], false⟩ (100, 100, 200, 200)
        ⟨true, true, 29, none⟩ []).1.targetPersonFound = false ∧
    (disambiguate ⟨false, 30, false⟩
        ⟨[], none, none, none, none, [], false⟩ (100, 100, 200, 200)
        ⟨true, true, 29, none⟩ []).1.framesWithoutFaces = 0 :=
  (claim_C5_tracker_reset ⟨false, 30, false⟩
    ⟨[], none, none, none, none, [], false⟩ (100, 100, 200, 200)
    ⟨true, true, 29, none⟩ [] rfl).1 rfl rfl (by norm_num)

/-- The concrete frame oracle for the C4 evaluation: the tracker update
succeeds at `[100, 100, 200, 200]`, the single face detection
`[0, 0, 10, 10]` lies outside that region (zero in-region detections), and
the recovery engine succeeds, returning the face's box. -/
def envC4 : FrameEnv :=
  { faceDets := [⟨0, 0, 10, 10, 9/10⟩],
    findPerson := none,
    trackerUpdate := some (100, 100, 200, 200),
    recoverOnUpdateFail := none,
    recoverOnZeroInRegion := some (0, 0, 10, 10),
    personRows := [],
    previewQuit := false }

/-- C4 fails on the code: on a tracked frame with zero in-region detections
where recovery SUCCEEDS (a face is re-attributed to the tracked region and
even excluded from the anonymization set), the frame still ends with
`frames_without_faces = 1`, not 0.  The code resets the counter to 0 inside
the recovery-success branch (main.py, line 659) but the increment at line
677 runs unconditionally on the zero-in-region path, immediately overriding
that reset.  So the counter increments on a frame where recovery did not
fail, and a frame that attributed a face to the tracked region ends with a
nonzero counter — contradicting both halves of the claim. -/
theorem claim_C4_eval :
    (frameStep ⟨false, 30, false⟩ envC4 ⟨true, true, 0, some (0, 0, 12, 12)⟩).1.framesWithoutFaces = 1 ∧
    (frameStep ⟨false, 30, false⟩ envC4 ⟨true, true, 0, some (0, 0, 12, 12)⟩).1.trackerActive = true ∧
    (frameStep ⟨false, 30, false⟩ envC4 ⟨true, true, 0, some (0, 0, 12, 12)⟩).2 = [] := by
  have hstep : frameStep ⟨false, 30, false⟩ envC4 ⟨true, true, 0, some (0, 0, 12, 12)⟩ =
      disambiguate ⟨false, 30, false⟩ envC4 (100, 100, 200, 200)
        ⟨true, true, 0, some (0, 0, 12, 12)⟩ [⟨0, 0, 10, 10, 9/10⟩] := by
    simp [frameStep, acquireStep, trackStep, envC4]
  rw [hstep]
  have hfilter : ([⟨0, 0, 10, 10, 9/10⟩] : List Det).filter
      (fun d => decide (detContainment d (100, 100, 200, 200) > 1/2)) = [] := by
    norm_num [List.filter, detContainment, detXYWH, calc_containment]
  have hfind : ([⟨0, 0, 10, 10, 9/10⟩] : List Det).find?
      (fun d => decide (detContainment d (0, 0, 10, 10) > 1/2)) =
      some ⟨0, 0, 10, 10, 9/10⟩ := by
    norm_num [List.find?, detContainment, detXYWH, calc_containment]
  unfold disambiguate
  rw [hfilter]
  simp only [envC4, List.length_nil]
  rw [hfind]
  norm_num [List.filter]

/-- One file of the target-person directory listing, with how the pipeline
fares on it: `loadOk` is whether `cv2.imread` returns an image and the
embedding extraction raises no exception, and `embeddings` is how many
embeddings `get_person_embeddings_from_image` yields for it. -/
structure ImageFile where
  name : String
  loadOk : Bool
  embeddings : Nat
deriving DecidableEq

/-- The run-level environment for `process_video_with_selective_blurring`:
whether the video path and the target directory exist, the directory
listing, whether imageio can open the video container, and the number of
frames the reader yields when it can. -/
structure RunEnv where
  videoExists : Bool
  targetDirExists : Bool
  dirListing : List ImageFile
  containerOpens : Bool
  numFrames : Nat
deriving DecidableEq

/-- The errors `process_video_with_selective_blurring` raises during
validation: the two `FileNotFoundError`s and the two `ValueError`s. -/
inductive RunError where
  | videoNotFound
  | targetDirNotFound
  | noImages
  | noEmbeddings
deriving DecidableEq

/-- The success dictionary returned by
`process_video_with_selective_blurring`. -/
structure RunResult where
  success : Bool
  framesProcessed : Nat
  targetEmbeddingsCount : Nat
deriving DecidableEq

/-- Observable milestones of a run, used to state in which order failures
occur: model initialization (YOLO, TorchReid, CenterFace) and the
processing of each frame. -/
inductive RunEvent where
  | modelInit
  | frameProcessed (i : Nat)
deriving DecidableEq

/-- ASCII lowercasing of one character, as `str.lower` acts on the ASCII
range (the accepted extensions are all ASCII). -/
def lowerChar (c : Char) : Char :=
  if 'A' ≤ c ∧ c ≤ 'Z' then Char.ofNat (c.toNat + 32) else c

/-- The image extensions accepted when listing the target-person directory
(main.py, line 139), as character lists. -/
def imageExtensions : List (List Char) :=
  [['.', 'j', 'p', 'g'], ['.', 'j', 'p', 'e', 'g'],
   ['.', 'p', 'n', 'g'], ['.', 'b', 'm', 'p']]

/-- The filename filter of main.py, lines 140-143: a file qualifies when its
lowercased name ends with one of the accepted extensions. -/
def isImageName (f : String) : Bool :=
  imageExtensions.any (fun ext => ext.isSuffixOf (f.toList.map lowerChar))

/-- Embeds `process_video_with_selective_blurring` (main.py, lines 39-207)
composed with the open/abort behaviour of `video_detect` (lines 438-465):
validate the two paths before any model is created, initialize models, list
and filter the target images, reject an empty image set and an empty
embedding set before any frame is processed, then run the frame loop.  When
imageio cannot open the container, `video_detect` prints a message and
returns `None` without raising, so the wrapper still returns its success
dictionary.  The result pairs the emitted milestone events with either the
raised error or the returned dictionary. -/
def process_video_with_selective_blurring (env : RunEnv) :
    List RunEvent × Except RunError RunResult :=
  if !env.videoExists then ([], .error .videoNotFound)
  else if !env.targetDirExists then ([], .error .targetDirNotFound)
  else
    let events := [RunEvent.modelInit]
    let targetImages := env.dirListing.filter (fun f => isImageName f.name)
    if targetImages.isEmpty then (events, .error .noImages)
    else
      let targetEmbeddingsCount :=
        ((targetImages.filter (fun f => f.loadOk)).map (fun f => f.embeddings)).sum
      if targetEmbeddingsCount = 0 then (events, .error .noEmbeddings)
      else
        if !env.containerOpens then
          (events, .ok { success := true, framesProcessed := 0,
                         targetEmbeddingsCount := targetEmbeddingsCount })
        else
          (events ++ (List.range env.numFrames).map RunEvent.frameProcessed,
           .ok { success := true, framesProcessed := env.numFrames,
                 targetEmbeddingsCount := targetEmbeddingsCount })

/-- C7: the entry point fails fast on invalid inputs.  A missing video path
or target directory raises a not-found error before any model is
initialized (no milestone events at all); a target directory with no
image-named files, or one whose images yield zero embeddings, raises a
validation error after model initialization but before any frame is
processed. -/
theorem claim_C7_fail_fast (env : RunEnv) :
    (env.videoExists = false →
      process_video_with_selective_blurring env = ([], .error .videoNotFound)) ∧
    (env.videoExists = true → env.targetDirExists = false →
      process_video_with_selective_blurring env = ([], .error .targetDirNotFound)) ∧
    (env.videoExists = true → env.targetDirExists = true →
      env.dirListing.filter (fun f => isImageName f.name) = [] →
      process_video_with_selective_blurring env = ([RunEvent.modelInit], .error .noImages)) ∧
    (env.videoExists = true → env.targetDirExists = true →
      ∀ imgs, env.dirListing.filter (fun f => isImageName f.name) = imgs →
      imgs ≠ [] →
      ((imgs.filter (fun f => f.loadOk)).map (fun f => f.embeddings)).sum = 0 →
      process_video_with_selective_blurring env = ([RunEvent.modelInit], .error .noEmbeddings)) := by
  refine ⟨fun h1 => ?_, fun h1 h2 => ?_, fun h1 h2 h3 => ?_, fun h1 h2 imgs h3 h4 h5 => ?_⟩
  · unfold process_video_with_selective_blurring
    rw [h1]
    rfl
  · unfold process_video_with_selective_blurring
    rw [h1, h2]
    rfl
  · unfold process_video_with_selective_blurring
    rw [h1, h2, h3]
    rfl
  · unfold process_video_with_selective_blurring
    rw [h1, h2, h3]
    simp only [Bool.not_true, Bool.false_eq_true, if_false]
    rw [if_neg (by simpa using h4), if_pos h5]

/-- C7 witness: four concrete runs, one per failure mode.  The listing
`["notes.txt"]` has no image-named file; the listing `["a.jpg"]` with a
failed load yields zero embeddings. -/
theorem claim_C7_fail_fast_witness :
    process_video_with_selective_blurring ⟨false, true, [], true, 5⟩ =
      ([], .error .videoNotFound) ∧
    process_video_with_selective_blurring ⟨true, false, [], true, 5⟩ =
      ([], .error .targetDirNotFound) ∧
    process_video_with_selective_blurring ⟨true, true, [⟨"notes.txt", true, 3⟩], true, 5⟩ =
      ([RunEvent.modelInit], .error .noImages) ∧
    process_video_with_selective_blurring ⟨true, true, [⟨"a.jpg", false, 0⟩], true, 5⟩ =
      ([RunEvent.modelInit], .error .noEmbeddings) := by
  refine ⟨(claim_C7_fail_fast _).1 rfl, (claim_C7_fail_fast _).2.1 rfl rfl, ?_, ?_⟩
  · exact (claim_C7_fail_fast _).2.2.1 rfl rfl (by decide)
  · exact (claim_C7_fail_fast _).2.2.2 rfl rfl [⟨"a.jpg", false, 0⟩] (by decide)
      (by decide) (by decide)

/-- C6 counterexample: a run whose inputs are all valid but whose container
cannot be opened.  `video_detect` catches the reader exception, prints
"Skipping file..." and returns `None` (main.py, lines 459-465), so
`process_video_with_selective_blurring` returns its success dictionary:
the result is `.ok` with `success = true`, not an error — the failure is
reported as success, contradicting the claim that in single-item mode it is
surfaced to the caller.  (The first half of the claim does hold: no frame
event is emitted.) -/
theorem claim_C6_open_failure_reported_as_success :
    process_video_with_selective_blurring ⟨true, true, [⟨"a.jpg", true, 2⟩], false, 120⟩ =
      ([RunEvent.modelInit],
       .ok { success := true, framesProcessed := 0, targetEmbeddingsCount := 2 }) := by
  rfl

/-- C6 as amended: for every run with valid inputs whose container cannot
be opened, the run aborts before any frame is processed (the only milestone
is model initialization and zero frames are processed), but the failure is
NOT surfaced to the caller: `video_detect` swallows the reader error and
returns `None`, so the single-item entry point returns its success
dictionary with `success = true`. -/
theorem claim_C6_amended_skip (env : RunEnv)
    (h1 : env.videoExists = true) (h2 : env.targetDirExists = true)
    (h3 : (env.dirListing.filter (fun f => isImageName f.name)).isEmpty = false)
    (h4 : (((env.dirListing.filter (fun f => isImageName f.name)).filter
        (fun f => f.loadOk)).map (fun f => f.embeddings)).sum ≠ 0)
    (h5 : env.containerOpens = false) :
    process_video_with_selective_blurring env =
      ([RunEvent.modelInit],
       .ok { success := true, framesProcessed := 0,
             targetEmbeddingsCount :=
               (((env.dirListing.filter (fun f => isImageName f.name)).filter
                  (fun f => f.loadOk)).map (fun f => f.embeddings)).sum }) := by
  unfold process_video_with_selective_blurring
  rw [h1, h2, h5]
  simp only [Bool.not_true, Bool.not_false, Bool.false_eq_true, if_false, if_true]
  rw [if_neg (by simp [h3]), if_neg h4]

/-- C6 amended witness: the concrete valid-but-unopenable run. -/
theorem claim_C6_amended_skip_witness :
    process_video_with_selective_blurring ⟨true, true, [⟨"b.png", true, 3⟩], false, 99⟩ =
      ([RunEvent.modelInit],
       .ok { success := true, framesProcessed := 0, targetEmbeddingsCount := 3 }) := by
  have h := claim_C6_amended_skip ⟨true, true, [⟨"b.png", true, 3⟩], false, 99⟩
    rfl rfl (by decide) (by decide) rfl
  rw [h]
  rfl

/-- The frame loop of `video_detect` (main.py, lines 514-711) at the level
of written frames.  `α` is the type of frame buffers; `anonFn f dets`
stands for the anonymized rendering of frame `f` under the frame's final
anonymization set (Step 4), which is appended to the writer (Step 5) before
the loop continues.  The loop breaks after writing the current frame when
preview is enabled and the preview window reports a quit key (lines
698-702); preview is disabled in API mode. -/
def videoLoop {α : Type} (cfg : Config) (anonFn : α → List Det → α)
    (envs : Nat → FrameEnv) : TrackState → Nat → List α → List α
  | _, _, [] => []
  | st, i, f :: fs =>
      let step := frameStep cfg (envs i) st
      let out := anonFn f step.2
      if cfg.enablePreview && (envs i).previewQuit then [out]
      else out :: videoLoop cfg anonFn envs step.1 (i + 1) fs

/-- C8: with preview disabled (no early exit, and the loop itself skips no
frame), a fully processed input of N frames writes exactly N output frames,
and the k-th output frame is the anonymized rendering of the k-th input
frame under the state threaded from the preceding frames — one frame
written per input frame, in input order. -/
theorem claim_C8_frame_count {α : Type} (cfg : Config)
    (anonFn : α → List Det → α) (envs : Nat → FrameEnv)
    (hp : cfg.enablePreview = false) :
    (∀ (st : TrackState) (i : Nat) (frames : List α),
      (videoLoop cfg anonFn envs st i frames).length = frames.length) ∧
    (∀ (st : TrackState) (i : Nat) (f : α) (fs : List α),
      videoLoop cfg anonFn envs st i (f :: fs) =
        anonFn f (frameStep cfg (envs i) st).2 ::
          videoLoop cfg anonFn envs (frameStep cfg (envs i) st).1 (i + 1) fs) := by
  have hstep : ∀ (st : TrackState) (i : Nat) (f : α) (fs : List α),
      videoLoop cfg anonFn envs st i (f :: fs) =
        anonFn f (frameStep cfg (envs i) st).2 ::
          videoLoop cfg anonFn envs (frameStep cfg (envs i) st).1 (i + 1) fs := by
    intro st i f fs
    simp [videoLoop, hp]
  refine ⟨?_, hstep⟩
  intro st i frames
  induction frames generalizing st i with
  | nil => rfl
  | cons f fs ih =>
      rw [hstep st i f fs]
      simp [ih]

/-- C8 witness: a three-frame run with preview disabled writes three
frames. -/
theorem claim_C8_frame_count_witness :
    (videoLoop ⟨false, 30, false⟩ (fun (a : Nat) _ => a)
      (fun _ => ⟨[], none, none, none, none, [], false⟩)
      ⟨false, false, 0, none⟩ 0 [7, 8, 9]).length = 3 :=
  (claim_C8_frame_count ⟨false, 30, false⟩ (fun (a : Nat) _ => a)
    (fun _ => ⟨[], none, none, none, none, [], false⟩) rfl).1
    ⟨false, false, 0, none⟩ 0 [7, 8, 9]

/-- A frame buffer: the pixel value at row `y`, column `x`.  `P` is the
pixel type (a colour tuple in the source). -/
def Img (P : Type) : Type :=
  Nat → Nat → P

/-- `cv2.rectangle(frame, (px1, py1), (px2, py2), c, -1)`: fill the
inclusive rectangle between the two corners with the constant colour. -/
def fillRect {P : Type} (img : Img P) (px1 py1 px2 py2 : Nat) (c : P) : Img P :=
  fun y x => if px1 ≤ x ∧ x ≤ px2 ∧ py1 ≤ y ∧ y ≤ py2 then c else img y x

/-- The `replacewith == 'solid'` arm of `draw_det` (main.py, lines
331-332): one filled rectangle over the scaled, clipped box. -/
def draw_det_solid {P : Type} (x1 y1 x2 y2 : Nat) (c : P) (img : Img P) : Img P :=
  fillRect img x1 y1 x2 y2 c

/-- Python `range(a, b, step)` for a positive step, as the list of
anchors `a + i * step` below `b`. -/
def pyRange (a b step : Nat) : List Nat :=
  (List.range ((b - a + step - 1) / step)).map (fun i => a + i * step)

/-- One mosaic cell (the body of the nested loops of the
`replacewith == 'mosaic'` arm, main.py lines 354-359): read the colour at
the cell's anchor `(y, x)` from the current frame, then fill the inclusive
rectangle from the anchor to `(min(x2, x + m - 1), min(y2, y + m - 1))`
with it. -/
def mosaicCell {P : Type} (m x2 y2 : Nat) (img : Img P) (anchor : Nat × Nat) : Img P :=
  fillRect img anchor.2 anchor.1 (min x2 (anchor.2 + m - 1)) (min y2 (anchor.1 + m - 1))
    (img anchor.1 anchor.2)

/-- The row-major list of cell anchors `(y, x)` the mosaic loops visit. -/
def mosaicAnchors (m x1 y1 x2 y2 : Nat) : List (Nat × Nat) :=
  (pyRange y1 y2 m).flatMap (fun y => (pyRange x1 x2 m).map (fun x => (y, x)))

/-- The `replacewith == 'mosaic'` arm of `draw_det` (main.py, lines
353-359): fold the cells over the evolving frame in loop order. -/
def draw_det_mosaic {P : Type} (m x1 y1 x2 y2 : Nat) (img : Img P) : Img P :=
  (mosaicAnchors m x1 y1 x2 y2).foldl (mosaicCell m x2 y2) img

/-- The pixels `(y, x)` covered by the mosaic cell anchored at `a`. -/
def inCell (m x2 y2 : Nat) (a : Nat × Nat) (y x : Nat) : Prop :=
  a.2 ≤ x ∧ x ≤ min x2 (a.2 + m - 1) ∧ a.1 ≤ y ∧ y ≤ min y2 (a.1 + m - 1)

instance (m x2 y2 : Nat) (a : Nat × Nat) (y x : Nat) :
    Decidable (inCell m x2 y2 a y x) := by
  unfold inCell; infer_instance

theorem mosaicCell_apply {P : Type} (m x2 y2 : Nat) (img : Img P)
    (a : Nat × Nat) (y x : Nat) :
    mosaicCell m x2 y2 img a y x =
      if inCell m x2 y2 a y x then img a.1 a.2 else img y x := rfl

theorem mem_pyRange {a b step v : Nat} :
    v ∈ pyRange a b step ↔
      ∃ i, i < (b - a + step - 1) / step ∧ v = a + i * step := by
  unfold pyRange
  simp only [List.mem_map, List.mem_range]
  constructor
  · rintro ⟨i, hi, rfl⟩; exact ⟨i, hi, rfl⟩
  · rintro ⟨i, hi, rfl⟩; exact ⟨i, hi, rfl⟩

theorem pyRange_lt {a b step v : Nat} (hstep : 1 ≤ step)
    (hv : v ∈ pyRange a b step) : v < b := by
  rcases mem_pyRange.mp hv with ⟨i, hi, rfl⟩
  have h2 : (i + 1) * step ≤ ((b - a + step - 1) / step) * step :=
    Nat.mul_le_mul_right _ hi
  have h3 : ((b - a + step - 1) / step) * step ≤ b - a + step - 1 :=
    Nat.div_mul_le_self _ _
  rw [Nat.succ_mul] at h2
  omega

theorem pyRange_sep {a b step v w : Nat} (_hstep : 1 ≤ step)
    (hv : v ∈ pyRange a b step) (hw : w ∈ pyRange a b step) (hne : v ≠ w) :
    v + step ≤ w ∨ w + step ≤ v := by
  rcases mem_pyRange.mp hv with ⟨i, _, rfl⟩
  rcases mem_pyRange.mp hw with ⟨j, _, rfl⟩
  have hij : i ≠ j := by rintro rfl; exact hne rfl
  rcases Nat.lt_or_ge i j with h | h
  · left
    have hstepm : (i + 1) * step ≤ j * step := Nat.mul_le_mul_right _ h
    rw [Nat.succ_mul] at hstepm
    omega
  · have hj : j < i := by omega
    right
    have hstepm : (j + 1) * step ≤ i * step := Nat.mul_le_mul_right _ hj
    rw [Nat.succ_mul] at hstepm
    omega

theorem pyRange_nodup {a b step : Nat} (hstep : 1 ≤ step) :
    (pyRange a b step).Nodup := by
  unfold pyRange
  refine List.Nodup.map ?_ (List.nodup_range _)
  intro i j hij
  have hij' : a + i * step = a + j * step := hij
  have hms : i * step = j * step := by omega
  exact Nat.eq_of_mul_eq_mul_right hstep hms

theorem mem_mosaicAnchors {m x1 y1 x2 y2 : Nat} {c : Nat × Nat} :
    c ∈ mosaicAnchors m x1 y1 x2 y2 ↔
      c.1 ∈ pyRange y1 y2 m ∧ c.2 ∈ pyRange x1 x2 m := by
  unfold mosaicAnchors
  rcases c with ⟨ay, ax⟩
  simp only [List.mem_flatMap, List.mem_map, Prod.mk.injEq]
  constructor
  · rintro ⟨y, hy, x, hx, hyy, hxx⟩
    exact ⟨hyy ▸ hy, hxx ▸ hx⟩
  · rintro ⟨hy, hx⟩
    exact ⟨ay, hy, ax, hx, rfl, rfl⟩

theorem mosaicAnchors_self {m x1 y1 x2 y2 : Nat} (hm : 1 ≤ m)
    {c : Nat × Nat} (hc : c ∈ mosaicAnchors m x1 y1 x2 y2) :
    inCell m x2 y2 c c.1 c.2 := by
  rcases mem_mosaicAnchors.mp hc with ⟨hy, hx⟩
  have hx2 : c.2 < x2 := pyRange_lt hm hx
  have hy2 : c.1 < y2 := pyRange_lt hm hy
  exact ⟨le_refl _, le_min (le_of_lt hx2) (by omega),
         le_refl _, le_min (le_of_lt hy2) (by omega)⟩

theorem mosaicAnchors_sep {m x1 y1 x2 y2 : Nat} (hm : 1 ≤ m)
    {c c' : Nat × Nat} (hc : c ∈ mosaicAnchors m x1 y1 x2 y2)
    (hc' : c' ∈ mosaicAnchors m x1 y1 x2 y2) (hne : c ≠ c') (y x : Nat) :
    ¬ (inCell m x2 y2 c y x ∧ inCell m x2 y2 c' y x) := by
  rcases mem_mosaicAnchors.mp hc with ⟨hy, hx⟩
  rcases mem_mosaicAnchors.mp hc' with ⟨hy', hx'⟩
  rintro ⟨h1, h2⟩
  by_cases hxx : c.2 = c'.2
  · have hyy : c.1 ≠ c'.1 := by
      intro h
      exact hne (Prod.ext h hxx)
    rcases pyRange_sep hm hy hy' hyy with h | h
    · have l1 : y ≤ c.1 + m - 1 := le_trans h1.2.2.2 (Nat.min_le_right _ _)
      have l2 : c'.1 ≤ y := h2.2.2.1
      omega
    · have l1 : y ≤ c'.1 + m - 1 := le_trans h2.2.2.2 (Nat.min_le_right _ _)
      have l2 : c.1 ≤ y := h1.2.2.1
      omega
  · rcases pyRange_sep hm hx hx' hxx with h | h
    · have l1 : x ≤ c.2 + m - 1 := le_trans h1.2.1 (Nat.min_le_right _ _)
      have l2 : c'.2 ≤ x := h2.1
      omega
    · have l1 : x ≤ c'.2 + m - 1 := le_trans h2.2.1 (Nat.min_le_right _ _)
      have l2 : c.2 ≤ x := h1.1
      omega

theorem mosaicAnchors_nodup {m x1 y1 x2 y2 : Nat} (hm : 1 ≤ m) :
    (mosaicAnchors m x1 y1 x2 y2).Nodup := by
  unfold mosaicAnchors
  rw [List.nodup_flatMap]
  constructor
  · intro ypos _
    refine List.Nodup.map ?_ (pyRange_nodup hm)
    intro xa xb hab
    exact (Prod.mk.injEq _ _ _ _ ▸ hab).2
  · refine List.Pairwise.imp ?_ (pyRange_nodup hm)
    intro ya yb hne p hp1 hp2
    rcases List.mem_map.mp hp1 with ⟨xa, _, ha⟩
    rcases List.mem_map.mp hp2 with ⟨xb, _, hb⟩
    rw [← ha] at hb
    exact hne ((Prod.mk.injEq _ _ _ _ ▸ hb).1).symm

theorem foldl_mosaicCell_not_in {P : Type} {m x2 y2 : Nat}
    (cells : List (Nat × Nat)) (img : Img P) (y x : Nat)
    (h : ∀ c ∈ cells, ¬ inCell m x2 y2 c y x) :
    cells.foldl (mosaicCell m x2 y2) img y x = img y x := by
  induction cells generalizing img with
  | nil => rfl
  | cons c rest ih =>
      rw [List.foldl_cons]
      rw [ih _ (fun c' hc' => h c' (List.mem_cons_of_mem _ hc'))]
      rw [mosaicCell_apply, if_neg (h c (List.mem_cons_self _ _))]

theorem foldl_mosaicCell_in {P : Type} {m x2 y2 : Nat}
    (cells : List (Nat × Nat)) (c0 : Nat × Nat) (y x : Nat) :
    ∀ (img : Img P), cells.Nodup →
    (∀ c ∈ cells, ∀ c' ∈ cells, c ≠ c' → ∀ y' x',
      ¬ (inCell m x2 y2 c y' x' ∧ inCell m x2 y2 c' y' x')) →
    (∀ c ∈ cells, inCell m x2 y2 c c.1 c.2) →
    c0 ∈ cells → inCell m x2 y2 c0 y x →
    cells.foldl (mosaicCell m x2 y2) img y x = img c0.1 c0.2 := by
  induction cells with
  | nil =>
      intro img _ _ _ hc0 _
      cases hc0
  | cons c rest ih =>
      intro img hnd hsep hself hc0 hyx
      rw [List.foldl_cons]
      rcases List.mem_cons.mp hc0 with rfl | hmem
      · have hrest : ∀ c' ∈ rest, ¬ inCell m x2 y2 c' y x := by
          intro c' hc' hin
          have hne : c0 ≠ c' := by
            rintro rfl
            exact (List.nodup_cons.mp hnd).1 hc'
          exact hsep c0 (List.mem_cons_self _ _) c' (List.mem_cons_of_mem _ hc')
            hne y x ⟨hyx, hin⟩
        rw [foldl_mosaicCell_not_in rest _ y x hrest]
        rw [mosaicCell_apply, if_pos hyx]
      · have hne : c ≠ c0 := by
          rintro rfl
          exact (List.nodup_cons.mp hnd).1 hmem
        rw [ih (mosaicCell m x2 y2 img c) (List.nodup_cons.mp hnd).2
          (fun a ha b hb => hsep a (List.mem_cons_of_mem _ ha) b (List.mem_cons_of_mem _ hb))
          (fun a ha => hself a (List.mem_cons_of_mem _ ha)) hmem hyx]
        rw [mosaicCell_apply]
        rw [if_neg ?_]
        intro hin
        exact hsep c (List.mem_cons_self _ _) c0 (List.mem_cons_of_mem _ hmem) hne
          c0.1 c0.2 ⟨hin, hself c0 (List.mem_cons_of_mem _ hmem)⟩

theorem foldl_mosaicCell_fixed {P : Type} {m x2 y2 : Nat}
    (cells : List (Nat × Nat)) (g : Img P)
    (h : ∀ c ∈ cells, mosaicCell m x2 y2 g c = g) :
    cells.foldl (mosaicCell m x2 y2) g = g := by
  induction cells with
  | nil => rfl
  | cons c rest ih =>
      rw [List.foldl_cons, h c (List.mem_cons_self _ _)]
      exact ih (fun c' hc' => h c' (List.mem_cons_of_mem _ hc'))

theorem draw_det_mosaic_idem {P : Type} (m x1 y1 x2 y2 : Nat) (hm : 1 ≤ m)
    (img : Img P) :
    draw_det_mosaic m x1 y1 x2 y2 (draw_det_mosaic m x1 y1 x2 y2 img) =
      draw_det_mosaic m x1 y1 x2 y2 img := by
  unfold draw_det_mosaic
  apply foldl_mosaicCell_fixed
  intro c hc
  funext y x
  rw [mosaicCell_apply]
  by_cases hin : inCell m x2 y2 c y x
  · rw [if_pos hin]
    have h1 : (mosaicAnchors m x1 y1 x2 y2).foldl (mosaicCell m x2 y2) img c.1 c.2 =
        img c.1 c.2 :=
      foldl_mosaicCell_in _ c c.1 c.2 img (mosaicAnchors_nodup hm)
        (fun a ha b hb hne y' x' => mosaicAnchors_sep hm ha hb hne y' x')
        (fun a ha => mosaicAnchors_self hm ha) hc (mosaicAnchors_self hm hc)
    have h2 : (mosaicAnchors m x1 y1 x2 y2).foldl (mosaicCell m x2 y2) img y x =
        img c.1 c.2 :=
      foldl_mosaicCell_in _ c y x img (mosaicAnchors_nodup hm)
        (fun a ha b hb hne y' x' => mosaicAnchors_sep hm ha hb hne y' x')
        (fun a ha => mosaicAnchors_self hm ha) hc hin
    rw [h1, h2]
  · rw [if_neg hin]

/-- C9: the `solid` and `mosaic` arms of `draw_det` are idempotent: applying
either twice to the same box with the same parameters produces a frame that
is pixel-identical to applying it once.  (A single application is a pure
function of the frame, box and parameters in this embedding, so single-pass
determinism holds by construction.) -/
theorem claim_C9_solid_mosaic_idempotent {P : Type} (img : Img P) (c : P)
    (x1 y1 x2 y2 m : Nat) (hm : 1 ≤ m) :
    draw_det_solid x1 y1 x2 y2 c (draw_det_solid x1 y1 x2 y2 c img) =
      draw_det_solid x1 y1 x2 y2 c img ∧
    draw_det_mosaic m x1 y1 x2 y2 (draw_det_mosaic m x1 y1 x2 y2 img) =
      draw_det_mosaic m x1 y1 x2 y2 img := by
  constructor
  · funext y x
    unfold draw_det_solid fillRect
    by_cases h : x1 ≤ x ∧ x ≤ x2 ∧ y1 ≤ y ∧ y ≤ y2
    · simp only [if_pos h]
    · simp only [if_neg h]
  · exact draw_det_mosaic_idem m x1 y1 x2 y2 hm img

/-- C9 witness: idempotence instantiated on a concrete frame (pixel value
`100 y + x`), the box `[3, 2, 37, 25]`, colour 0, and the default mosaic
size 20. -/
theorem claim_C9_solid_mosaic_idempotent_witness :
    draw_det_solid 3 2 37 25 0 (draw_det_solid 3 2 37 25 0
        (fun y x => 100 * y + x)) =
      draw_det_solid 3 2 37 25 (0 : Nat) (fun y x => 100 * y + x) ∧
    draw_det_mosaic 20 3 2 37 25 (draw_det_mosaic 20 3 2 37 25
        (fun y x => 100 * y + x)) =
      draw_det_mosaic 20 3 2 37 25 (fun y x : Nat => (100 * y + x : Nat)) :=
  claim_C9_solid_mosaic_idempotent (fun y x => 100 * y + x) 0 3 2 37 25 20
    (by decide)
